import Mathlib

/-!
Shallow embedding of the teardown-and-replace reconciliation controller of
`baram/sagemaker_manager.py` (class `SagemakerManager`), together with
theorems checking the natural-language specification against it.

The remote control plane is modelled as an environment (`Env`, `REnv`) that
fixes the outcome of every remote call; the Python methods become pure
functions of that environment.  The unbounded `while` loop of
`delete_user_profile` and the wait loop of `recreate_all_user_profiles` are
given an explicit fuel parameter; exhausting the fuel (`outOfFuel`) models
the loop still running after that many iterations.
-/

namespace Baram

/-- A SageMaker app (child resource), identified by name and app type,
as used by `list_apps` / `describe_app` / `delete_app`. -/
structure App where
  name : String
  kind : String
  deriving DecidableEq, Repr

/-- Outcome of a `describe_app` call: a response carrying a `Status` string,
or one of the two exception types the source distinguishes
(`ResourceNotFound`, `ResourceInUse`). -/
inductive DescribeResult where
  | found (status : String)
  | notFound
  | inUse
  deriving DecidableEq, Repr

/-- Environment fixing the answers of the remote control plane for one
`delete_user_profile` run: whether `describe_user_profile` finds the profile,
the `list_apps` result, the `describe_app` answers during the delete-request
phase, the raw provider outcome of each `delete_app`, and the `describe_app`
answers at each tick of the polling loop. -/
structure Env where
  profileExists : Bool
  apps : List App
  describeDel : App → DescribeResult
  deleteRaw : App → Except String Unit
  describePoll : Nat → App → DescribeResult

/-- `SagemakerManager.delete_app`: the boto3 call is wrapped in a bare
`try/except` that returns `None` on any exception, so the embedded function
maps every provider error to `none` and a provider success to its response. -/
def delete_app (raw : Except String Unit) : Option Unit :=
  match raw with
  | .ok r => some r
  | .error _ => none

/-- The condition under which the delete-request phase issues a delete:
the described status differs from both Deleted and Deleting. -/
def needsDelete (s : String) : Bool :=
  s != "Deleted" && s != "Deleting"

/-- The condition counted by the polling loop:
the described status equals Deleted or equals Failed. -/
def termStatus (s : String) : Bool :=
  s == "Deleted" || s == "Failed"

/-- The delete-request phase of `delete_user_profile` (the first `for app in
apps` loop): describe each app; on `ResourceNotFound` skip it (`pass`); on
`ResourceInUse` return from the whole method (abort flag `true`); otherwise
issue `delete_app` when the status is neither `Deleted` nor `Deleting`.
Returns the list of apps for which a delete was requested and the abort flag. -/
def deletePhase (env : Env) : List App → List App × Bool
  | [] => ([], false)
  | a :: rest =>
    match env.describeDel a with
    | .inUse => ([], true)
    | .notFound => deletePhase env rest
    | .found s =>
      if needsDelete s then
        let _r := delete_app (env.deleteRaw a)
        let tail := deletePhase env rest
        (a :: tail.1, tail.2)
      else deletePhase env rest

/-- One tick of the polling loop: describe every app in order, counting those
whose status is `Deleted` or `Failed`.  A describe that raises (`notFound` or
`inUse` — neither is caught inside the `while` loop) aborts the tick with the
app whose query raised. -/
def tickCount (env : Env) (t : Nat) : List App → Except App Nat
  | [] => .ok 0
  | a :: rest =>
    match env.describePoll t a with
    | .found s =>
      match tickCount env t rest with
      | .ok c => .ok ((if termStatus s then 1 else 0) + c)
      | .error b => .error b
    | .notFound => .error a
    | .inUse => .error a

/-- The apps actually queried during one tick: every app up to and including
the first one whose describe raised. -/
def tickQueried (env : Env) (t : Nat) : List App → List App
  | [] => []
  | a :: rest =>
    match env.describePoll t a with
    | .found _ => a :: tickQueried env t rest
    | .notFound => [a]
    | .inUse => [a]

/-- How a `delete_user_profile` run ends. -/
inductive TeardownResult where
  | profileAbsent
  | blockedInUse
  | pollError (t : Nat) (a : App)
  | parentDeleted (ticks : Nat)
  | outOfFuel
  deriving DecidableEq, Repr

/-- Trace of the polling loop: every (tick, app) status query made, and how
the loop ended. -/
structure PollOut where
  queries : List (Nat × App)
  result : TeardownResult
  deriving DecidableEq, Repr

/-- The `while delete_cnt < len(apps)` loop of `delete_user_profile`.
`t` is the current tick, `cnt` the count carried from the previous tick
(initially `0`).  The source has no iteration bound; `fuel` bounds the
embedding, and running out of fuel while the condition still holds yields
`outOfFuel` (the source would keep looping). -/
def pollLoop (env : Env) : Nat → Nat → Nat → PollOut
  | 0, t, cnt =>
    if cnt < env.apps.length then ⟨[], .outOfFuel⟩ else ⟨[], .parentDeleted t⟩
  | fuel + 1, t, cnt =>
    if cnt < env.apps.length then
      match tickCount env t env.apps with
      | .error a => ⟨(tickQueried env t env.apps).map (fun b => (t, b)), .pollError t a⟩
      | .ok c =>
        let rest := pollLoop env fuel (t + 1) c
        ⟨(tickQueried env t env.apps).map (fun b => (t, b)) ++ rest.queries, rest.result⟩
    else ⟨[], .parentDeleted t⟩

/-- Trace of a whole `delete_user_profile` run: the delete requests issued in
the delete-request phase, the status queries of the polling loop, and the
final result.  `result = parentDeleted t` is the one case in which the
closing `self.cli.delete_user_profile(...)` call is issued. -/
structure RunOut where
  deletes : List App
  queries : List (Nat × App)
  result : TeardownResult
  deriving DecidableEq, Repr

/-- `SagemakerManager.delete_user_profile`: return early if the profile is
absent; run the delete-request phase (which may abort on `ResourceInUse`);
then poll until every app counts as `Deleted` or `Failed`; only then issue
the parent delete. -/
def delete_user_profile (env : Env) (fuel : Nat) : RunOut :=
  if env.profileExists then
    match deletePhase env env.apps with
    | (ds, true) => ⟨ds, [], .blockedInUse⟩
    | (ds, false) =>
      let p := pollLoop env fuel 0 0
      ⟨ds, p.queries, p.result⟩
  else ⟨[], [], .profileAbsent⟩

/-- Whether the poll-phase describe of app `a` at tick `t` returns a status
that the loop counts as terminal. -/
def pollTerm (env : Env) (t : Nat) (a : App) : Bool :=
  match env.describePoll t a with
  | .found s => termStatus s
  | .notFound => false
  | .inUse => false

/-- Whether the delete-request phase issues a delete for `a`: its describe
succeeded and the status is neither `Deleted` nor `Deleting`. -/
def requestPred (env : Env) (a : App) : Bool :=
  match env.describeDel a with
  | .found s => needsDelete s
  | .notFound => false
  | .inUse => false

/-- Whether a `delete_user_profile` call returns to its caller instead of
raising out of the polling loop (`pollError` is an uncaught exception) or
looping past the fuel bound. -/
def returnsNormally : TeardownResult → Bool
  | .pollError _ _ => false
  | .outOfFuel => false
  | .profileAbsent => true
  | .blockedInUse => true
  | .parentDeleted _ => true

/-- The configuration snapshot `recreate_all_user_profiles` takes of a user
profile before tearing it down: the fields it reads back are
`UserProfileName` and `UserSettings.ExecutionRole`. -/
structure Profile where
  name : String
  executionRole : String
  deriving DecidableEq, Repr

/-- A Python value as far as the wait-loop membership test is concerned:
the left operand (the profile name) is a Python string, the elements of
`self.list_user_profiles()` are profile dicts. -/
inductive PyVal where
  | str (s : String)
  | dict (p : Profile)
  deriving DecidableEq, Repr

/-- Python `==` between the values involved in the membership test: a `str`
never equals a dict. -/
def pyEq : PyVal → PyVal → Bool
  | .str a, .str b => a == b
  | .dict a, .dict b => a == b
  | .str _, .dict _ => false
  | .dict _, .str _ => false

/-- Python `in`: membership by `==` over the list elements. -/
def pyMem (v : PyVal) (l : List PyVal) : Bool :=
  l.any (fun w => pyEq v w)

/-- Environment for one `recreate_all_user_profiles` run: the pre-teardown
snapshot of every profile (from `list_user_profiles` plus
`describe_user_profile`), the teardown environment that the
`delete_user_profile` call of each profile runs against, the `list_user_profiles` answers at
each evaluation of the wait-loop condition, and the raw provider outcome of
each `create_user_profile` call. -/
structure REnv where
  profiles : List Profile
  tdEnv : String → Env
  listAfter : String → Nat → List Profile
  createRaw : String → Except String Unit

/-- The post-delete wait loop of `recreate_all_user_profiles`, which tests
membership of the profile name in the `list_user_profiles` result: `k` counts the iterations so far; the condition compares the name
string against the list of profile dicts.  Returns the number of iterations
executed, or `none` when the fuel runs out with the condition still true. -/
def waitLoop (renv : REnv) (name : String) : Nat → Nat → Option Nat
  | 0, k =>
    if pyMem (.str name) ((renv.listAfter name k).map PyVal.dict) then none
    else some k
  | fuel + 1, k =>
    if pyMem (.str name) ((renv.listAfter name k).map PyVal.dict) then
      waitLoop renv name fuel (k + 1)
    else some k

/-- How the per-profile body of the `recreate_all_user_profiles` loop ends. -/
inductive StepResult where
  | stepOk
  | raisedTeardown
  | raisedCreate
  | hung
  deriving DecidableEq, Repr

/-- Trace of one iteration of the `recreate_all_user_profiles` loop:
iterations of the wait loop, total sleep units after teardown (5 per wait
iteration plus the unconditional `time.sleep(5)` of the `else` branch),
the create request issued (name and role from the snapshot), and how the
iteration ended. -/
structure StepOut where
  waitIters : Option Nat
  sleepUnits : Option Nat
  createIssued : Option Profile
  res : StepResult
  deriving DecidableEq, Repr

/-- One iteration of the `for i in user_profiles` loop of
`recreate_all_user_profiles`: call `delete_user_profile` (whose uncaught
exceptions propagate), run the wait loop, sleep once more, then call
`create_user_profile` with the snapshotted name and execution role (a
rejected create raises). -/
def stepProfile (renv : REnv) (fuel : Nat) (p : Profile) : StepOut :=
  let td := delete_user_profile (renv.tdEnv p.name) fuel
  match td.result with
  | .pollError _ _ => ⟨none, none, none, .raisedTeardown⟩
  | .outOfFuel => ⟨none, none, none, .hung⟩
  | _ =>
    match waitLoop renv p.name fuel 0 with
    | none => ⟨none, none, none, .hung⟩
    | some k =>
      match renv.createRaw p.name with
      | .ok _ => ⟨some k, some (5 * k + 5), some p, .stepOk⟩
      | .error _ => ⟨some k, some (5 * k + 5), some p, .raisedCreate⟩

/-- Trace of a whole `recreate_all_user_profiles` run: the profiles whose
loop iteration started, the create requests issued, and the profile at which
an uncaught exception (or unbounded loop) ended the run, if any. -/
structure RecOut where
  processed : List String
  creates : List Profile
  err : Option String
  deriving DecidableEq, Repr

/-- The `for i in user_profiles` loop: an exception escaping one iteration
aborts the whole loop (there is no `try/except` around the body), leaving
the remaining profiles unprocessed. -/
def recreateGo (renv : REnv) (fuel : Nat) : List Profile → RecOut
  | [] => ⟨[], [], none⟩
  | p :: rest =>
    let s := stepProfile renv fuel p
    match s.res with
    | .stepOk =>
      let r := recreateGo renv fuel rest
      ⟨p.name :: r.processed, s.createIssued.toList ++ r.creates, r.err⟩
    | .raisedCreate => ⟨[p.name], s.createIssued.toList, some p.name⟩
    | .raisedTeardown => ⟨[p.name], [], some p.name⟩
    | .hung => ⟨[p.name], [], some p.name⟩

/-- `SagemakerManager.recreate_all_user_profiles`: snapshot every profile
up front, then run the per-profile teardown/wait/create loop. -/
def recreate_all_user_profiles (renv : REnv) (fuel : Nat) : RecOut :=
  recreateGo renv fuel renv.profiles

/-!
Concrete fixture environments used below by witnesses and counterexamples.
-/

def appA : App := ⟨"app-a", "JupyterServer"⟩

def appB : App := ⟨"app-b", "KernelGateway"⟩

def envFailedDeleted : Env :=
  ⟨true, [appA, appB],
    fun a => if a = appB then .found "Deleted" else .found "InService",
    fun _ => .ok (),
    fun _ a => if a = appB then .found "Deleted" else .found "Failed"⟩

def envStuck : Env :=
  ⟨true, [appA], fun _ => .found "InService", fun _ => .ok (),
    fun _ _ => .found "InService"⟩

def envVanish : Env :=
  ⟨true, [appA], fun _ => .found "InService", fun _ => .ok (),
    fun _ _ => .notFound⟩

def envFailedApp : Env :=
  ⟨true, [appA], fun _ => .found "Failed", fun _ => .ok (),
    fun _ _ => .found "Failed"⟩

def envRequery : Env :=
  ⟨true, [appA, appB],
    fun _ => .found "InService",
    fun _ => .ok (),
    fun t a => if a = appB then .found "Deleted"
      else if t = 0 then .found "InService" else .found "Deleted"⟩

def envRejected : Env :=
  ⟨true, [appA, appB],
    fun _ => .found "InService",
    fun a => if a = appA then .error "AccessDeniedException" else .ok (),
    fun t _ => if t = 0 then .found "InService" else .found "Deleted"⟩

def profP1 : Profile := ⟨"prof-1", "r1"⟩

def profP2 : Profile := ⟨"prof-2", "r2"⟩

def profP3 : Profile := ⟨"prof-3", "r3"⟩

def envOkEmpty : Env :=
  ⟨true, [], fun _ => .found "InService", fun _ => .ok (),
    fun _ _ => .found "InService"⟩

def envBlockedChild : Env :=
  ⟨true, [appA], fun _ => .inUse, fun _ => .ok (),
    fun _ _ => .found "InService"⟩

def renvRejectP1 : REnv :=
  ⟨[profP1, profP2, profP3], fun _ => envOkEmpty, fun _ _ => [],
    fun n => if n = "prof-1" then .error "Rejected" else .ok ()⟩

def renvBlockedMid : REnv :=
  ⟨[profP1, profP2, profP3],
    fun n => if n = "prof-2" then envBlockedChild else envOkEmpty,
    fun _ _ => [], fun _ => .ok ()⟩

def renvBlockedOnly : REnv :=
  ⟨[profP1], fun _ => envBlockedChild, fun _ _ => [profP1], fun _ => .ok ()⟩

theorem tickCount_ok_count (env : Env) (t : Nat) :
    ∀ l c, tickCount env t l = .ok c → c = l.countP (pollTerm env t) := by
  intro l
  induction l with
  | nil =>
    intro c h
    simp only [tickCount, Except.ok.injEq] at h
    simp [← h]
  | cons a rest ih =>
    intro c h
    simp only [tickCount] at h
    cases hd : env.describePoll t a with
    | found s =>
      rw [hd] at h
      cases hr : tickCount env t rest with
      | ok c2 =>
        rw [hr] at h
        simp only [Except.ok.injEq] at h
        subst h
        simp [List.countP_cons, pollTerm, hd, ih c2 hr, Nat.add_comm]
      | error b => rw [hr] at h; simp at h
    | notFound => rw [hd] at h; simp at h
    | inUse => rw [hd] at h; simp at h

theorem tickCount_ok_found (env : Env) (t : Nat) :
    ∀ l c, tickCount env t l = .ok c →
      ∀ a ∈ l, ∃ s, env.describePoll t a = .found s := by
  intro l
  induction l with
  | nil => intro c _ a ha; simp at ha
  | cons b rest ih =>
    intro c h a ha
    simp only [tickCount] at h
    cases hd : env.describePoll t b with
    | found s =>
      rw [hd] at h
      cases hr : tickCount env t rest with
      | ok c2 =>
        rcases List.mem_cons.mp ha with h1 | h1
        · exact ⟨s, h1 ▸ hd⟩
        · exact ih c2 hr a h1
      | error e => rw [hr] at h; simp at h
    | notFound => rw [hd] at h; simp at h
    | inUse => rw [hd] at h; simp at h

theorem tickQueried_of_ok (env : Env) (t : Nat) :
    ∀ l c, tickCount env t l = .ok c → tickQueried env t l = l := by
  intro l
  induction l with
  | nil => intro c _; rfl
  | cons b rest ih =>
    intro c h
    simp only [tickCount] at h
    cases hd : env.describePoll t b with
    | found s =>
      rw [hd] at h
      cases hr : tickCount env t rest with
      | ok c2 => simp [tickQueried, hd, ih c2 hr]
      | error e => rw [hr] at h; simp at h
    | notFound => rw [hd] at h; simp at h
    | inUse => rw [hd] at h; simp at h

theorem tickCount_ok_of_term (env : Env) (t : Nat) :
    ∀ l, (∀ a ∈ l, pollTerm env t a = true) →
      tickCount env t l = .ok (l.countP (pollTerm env t)) := by
  intro l
  induction l with
  | nil => intro _; rfl
  | cons b rest ih =>
    intro h
    have hb := h b (List.mem_cons_self b rest)
    have hrest := ih (fun a ha => h a (List.mem_cons_of_mem b ha))
    unfold pollTerm at hb
    cases hd : env.describePoll t b with
    | found s =>
      rw [hd] at hb
      simp [tickCount, hd, hrest, List.countP_cons, pollTerm, hb, Nat.add_comm]
    | notFound => rw [hd] at hb; simp at hb
    | inUse => rw [hd] at hb; simp at hb

theorem tick_all_terminal (env : Env) (t : Nat) (l : List App) (c : Nat)
    (h : tickCount env t l = .ok c) (hc : l.length ≤ c) :
    ∀ a ∈ l, ∃ s, env.describePoll t a = .found s ∧ termStatus s = true := by
  have hcount := tickCount_ok_count env t l c h
  have hle := List.countP_le_length (pollTerm env t) (l := l)
  have hall : ∀ a ∈ l, pollTerm env t a = true :=
    List.countP_eq_length.mp (Nat.le_antisymm hle (hcount ▸ hc))
  intro a ha
  obtain ⟨s, hs⟩ := tickCount_ok_found env t l c h a ha
  refine ⟨s, hs, ?_⟩
  have := hall a ha
  unfold pollTerm at this
  rw [hs] at this
  exact this

theorem pollLoop_exit (env : Env) :
    ∀ fuel t cnt u, (pollLoop env fuel t cnt).result = .parentDeleted u →
      (env.apps.length ≤ cnt ∧ u = t) ∨
      ∃ t2, t ≤ t2 ∧ u = t2 + 1 ∧
        ∀ a ∈ env.apps, ∃ s, env.describePoll t2 a = .found s ∧ termStatus s = true := by
  intro fuel
  induction fuel with
  | zero =>
    intro t cnt u h
    simp only [pollLoop] at h
    by_cases hlt : cnt < env.apps.length
    · simp [hlt] at h
    · simp [hlt] at h
      exact Or.inl ⟨Nat.le_of_not_lt hlt, h.symm⟩
  | succ fuel ih =>
    intro t cnt u h
    simp only [pollLoop] at h
    by_cases hlt : cnt < env.apps.length
    · rw [if_pos hlt] at h
      cases htc : tickCount env t env.apps with
      | error a => rw [htc] at h; simp at h
      | ok c =>
        rw [htc] at h
        simp only at h
        rcases ih (t + 1) c u h with ⟨hc, hu⟩ | ⟨t2, ht2, hu, hterm⟩
        · exact Or.inr ⟨t, Nat.le_refl t, hu, tick_all_terminal env t env.apps c htc hc⟩
        · exact Or.inr ⟨t2, Nat.le_trans (Nat.le_succ t) ht2, hu, hterm⟩
    · rw [if_neg hlt] at h
      have h2 : TeardownResult.parentDeleted t = .parentDeleted u := h
      cases h2
      exact Or.inl ⟨Nat.le_of_not_lt hlt, rfl⟩

theorem pollLoop_queries (env : Env) :
    ∀ fuel t cnt u, (pollLoop env fuel t cnt).result = .parentDeleted u →
      ∀ t2 a, t ≤ t2 → t2 < u → a ∈ env.apps →
        (t2, a) ∈ (pollLoop env fuel t cnt).queries := by
  intro fuel
  induction fuel with
  | zero =>
    intro t cnt u h t2 a hle hlt2 _
    simp only [pollLoop] at h
    by_cases hlt : cnt < env.apps.length
    · simp [hlt] at h
    · rw [if_neg hlt] at h
      have h2 : TeardownResult.parentDeleted t = .parentDeleted u := h
      cases h2
      exact absurd (Nat.lt_of_le_of_lt hle hlt2) (Nat.lt_irrefl t)
  | succ fuel ih =>
    intro t cnt u h t2 a hle hlt2 ha
    by_cases hlt : cnt < env.apps.length
    · simp only [pollLoop, if_pos hlt] at h ⊢
      cases htc : tickCount env t env.apps with
      | error b => rw [htc] at h; simp at h
      | ok c =>
        rw [htc] at h
        simp only at h ⊢
        rcases Nat.eq_or_lt_of_le hle with heq | hlt3
        · subst heq
          apply List.mem_append_left
          rw [tickQueried_of_ok env t env.apps c htc]
          exact List.mem_map.mpr ⟨a, ha, rfl⟩
        · exact List.mem_append_right _ (ih (t + 1) c u h t2 a hlt3 hlt2 ha)
    · simp only [pollLoop, if_neg hlt] at h
      have h2 : TeardownResult.parentDeleted t = .parentDeleted u := h
      cases h2
      exact absurd (Nat.lt_of_le_of_lt hle hlt2) (Nat.lt_irrefl t)

theorem pollLoop_converged_first (env : Env) (fuel : Nat)
    (h : ∀ a ∈ env.apps, pollTerm env 0 a = true) (hf : 1 ≤ fuel) :
    ∃ v, (pollLoop env fuel 0 0).result = .parentDeleted v := by
  obtain ⟨f, rfl⟩ : ∃ f, fuel = f + 1 := ⟨fuel - 1, (Nat.succ_pred_eq_of_pos hf).symm⟩
  by_cases hlen : 0 < env.apps.length
  · have htc := tickCount_ok_of_term env 0 env.apps h
    have hcnt : env.apps.countP (pollTerm env 0) = env.apps.length :=
      List.countP_eq_length.mpr h
    refine ⟨1, ?_⟩
    simp only [pollLoop, if_pos hlen, htc, hcnt]
    cases f with
    | zero => simp [pollLoop]
    | succ f2 => simp [pollLoop]
  · refine ⟨0, ?_⟩
    simp [pollLoop, hlen]

theorem deletePhase_no_inUse (env : Env) :
    ∀ l, (∀ a ∈ l, env.describeDel a ≠ .inUse) →
      deletePhase env l = (l.filter (requestPred env), false) := by
  intro l
  induction l with
  | nil => intro _; rfl
  | cons a rest ih =>
    intro h
    have ha := h a (List.mem_cons_self a rest)
    have hrest := ih (fun b hb => h b (List.mem_cons_of_mem a hb))
    cases hd : env.describeDel a with
    | inUse => exact absurd hd ha
    | notFound =>
      simp [deletePhase, hd, hrest, List.filter_cons, requestPred]
    | found s =>
      by_cases hs : needsDelete s
      · simp [deletePhase, hd, hs, hrest, List.filter_cons, requestPred]
      · simp [deletePhase, hd, hs, hrest, List.filter_cons, requestPred]

theorem run_no_inUse (env : Env) (fuel : Nat)
    (hex : env.profileExists = true)
    (hnb : ∀ a ∈ env.apps, env.describeDel a ≠ .inUse) :
    delete_user_profile env fuel =
      ⟨env.apps.filter (requestPred env), (pollLoop env fuel 0 0).queries,
        (pollLoop env fuel 0 0).result⟩ := by
  simp [delete_user_profile, hex, deletePhase_no_inUse env env.apps hnb]

theorem run_parentDeleted (env : Env) (fuel u : Nat)
    (h : (delete_user_profile env fuel).result = .parentDeleted u) :
    (pollLoop env fuel 0 0).result = .parentDeleted u := by
  unfold delete_user_profile at h
  by_cases hex : env.profileExists
  · rw [if_pos hex] at h
    cases hdp : deletePhase env env.apps with
    | mk ds b =>
      rw [hdp] at h
      cases b
      · simpa using h
      · simp at h
  · rw [if_neg hex] at h
    simp at h

theorem termStatus_iff (s : String) :
    termStatus s = true ↔ s = "Deleted" ∨ s = "Failed" := by
  simp [termStatus]

theorem tickCount_deleteRaw (pe : Bool) (apps : List App) (dd : App → DescribeResult)
    (dr f : App → Except String Unit) (dp : Nat → App → DescribeResult) (t : Nat) :
    ∀ l, tickCount ⟨pe, apps, dd, f, dp⟩ t l = tickCount ⟨pe, apps, dd, dr, dp⟩ t l := by
  intro l
  induction l with
  | nil => rfl
  | cons a rest ih => simp [tickCount, ih]

theorem tickQueried_deleteRaw (pe : Bool) (apps : List App) (dd : App → DescribeResult)
    (dr f : App → Except String Unit) (dp : Nat → App → DescribeResult) (t : Nat) :
    ∀ l, tickQueried ⟨pe, apps, dd, f, dp⟩ t l = tickQueried ⟨pe, apps, dd, dr, dp⟩ t l := by
  intro l
  induction l with
  | nil => rfl
  | cons a rest ih => simp [tickQueried, ih]

theorem pollLoop_deleteRaw (pe : Bool) (apps : List App) (dd : App → DescribeResult)
    (dr f : App → Except String Unit) (dp : Nat → App → DescribeResult) :
    ∀ fuel t cnt, pollLoop ⟨pe, apps, dd, f, dp⟩ fuel t cnt = pollLoop ⟨pe, apps, dd, dr, dp⟩ fuel t cnt := by
  intro fuel
  induction fuel with
  | zero => intro t cnt; rfl
  | succ fuel ih =>
    intro t cnt
    simp only [pollLoop, tickCount_deleteRaw pe apps dd dr f dp,
      tickQueried_deleteRaw pe apps dd dr f dp, ih]

theorem deletePhase_deleteRaw (pe : Bool) (apps : List App) (dd : App → DescribeResult)
    (dr f : App → Except String Unit) (dp : Nat → App → DescribeResult) :
    ∀ l, deletePhase ⟨pe, apps, dd, f, dp⟩ l = deletePhase ⟨pe, apps, dd, dr, dp⟩ l := by
  intro l
  induction l with
  | nil => rfl
  | cons a rest ih =>
    cases hd : dd a with
    | inUse => simp [deletePhase, hd]
    | notFound => simp [deletePhase, hd, ih]
    | found s => simp [deletePhase, hd, ih]

theorem run_deleteRaw (env : Env) (f : App → Except String Unit) (fuel : Nat) :
    delete_user_profile {env with deleteRaw := f} fuel = delete_user_profile env fuel := by
  obtain ⟨pe, apps, dd, dr, dp⟩ := env
  simp only [delete_user_profile, deletePhase_deleteRaw pe apps dd dr f dp,
    pollLoop_deleteRaw pe apps dd dr f dp]

theorem pyMem_str_dict (name : String) (l : List Profile) :
    pyMem (.str name) (l.map PyVal.dict) = false := by
  simp [pyMem, pyEq]

theorem waitLoop_eq_zero (renv : REnv) (name : String) :
    ∀ fuel k, waitLoop renv name fuel k = some k := by
  intro fuel k
  cases fuel with
  | zero => simp [waitLoop, pyMem_str_dict]
  | succ f => simp [waitLoop, pyMem_str_dict]

theorem stepProfile_createOk (renv : REnv) (fuel : Nat) (p : Profile)
    (h1 : returnsNormally (delete_user_profile (renv.tdEnv p.name) fuel).result = true)
    (h2 : renv.createRaw p.name = .ok ()) :
    stepProfile renv fuel p = ⟨some 0, some 5, some p, .stepOk⟩ := by
  unfold stepProfile
  cases hr : (delete_user_profile (renv.tdEnv p.name) fuel).result with
  | pollError t a => rw [hr] at h1; simp [returnsNormally] at h1
  | outOfFuel => rw [hr] at h1; simp [returnsNormally] at h1
  | profileAbsent => simp [hr, waitLoop_eq_zero, h2]
  | blockedInUse => simp [hr, waitLoop_eq_zero, h2]
  | parentDeleted t => simp [hr, waitLoop_eq_zero, h2]

theorem stepProfile_createReject (renv : REnv) (fuel : Nat) (p : Profile) (e : String)
    (h1 : returnsNormally (delete_user_profile (renv.tdEnv p.name) fuel).result = true)
    (h2 : renv.createRaw p.name = .error e) :
    stepProfile renv fuel p = ⟨some 0, some 5, some p, .raisedCreate⟩ := by
  unfold stepProfile
  cases hr : (delete_user_profile (renv.tdEnv p.name) fuel).result with
  | pollError t a => rw [hr] at h1; simp [returnsNormally] at h1
  | outOfFuel => rw [hr] at h1; simp [returnsNormally] at h1
  | profileAbsent => simp [hr, waitLoop_eq_zero, h2]
  | blockedInUse => simp [hr, waitLoop_eq_zero, h2]
  | parentDeleted t => simp [hr, waitLoop_eq_zero, h2]

theorem recreateGo_all_ok (renv : REnv) (fuel : Nat) :
    ∀ l, (∀ p ∈ l, returnsNormally (delete_user_profile (renv.tdEnv p.name) fuel).result = true) →
      (∀ p ∈ l, renv.createRaw p.name = .ok ()) →
      recreateGo renv fuel l = ⟨l.map Profile.name, l, none⟩ := by
  intro l
  induction l with
  | nil => intro _ _; rfl
  | cons p rest ih =>
    intro h1 h2
    have hs := stepProfile_createOk renv fuel p (h1 p (List.mem_cons_self p rest))
      (h2 p (List.mem_cons_self p rest))
    have hrest := ih (fun q hq => h1 q (List.mem_cons_of_mem p hq))
      (fun q hq => h2 q (List.mem_cons_of_mem p hq))
    simp [recreateGo, hs, hrest]

theorem recreateGo_reject (renv : REnv) (fuel : Nat) (p : Profile) (e : String) :
    ∀ l1 l2,
      (∀ q ∈ l1 ++ p :: l2,
        returnsNormally (delete_user_profile (renv.tdEnv q.name) fuel).result = true) →
      (∀ q ∈ l1, renv.createRaw q.name = .ok ()) →
      renv.createRaw p.name = .error e →
      recreateGo renv fuel (l1 ++ p :: l2) =
        ⟨l1.map Profile.name ++ [p.name], l1 ++ [p], some p.name⟩ := by
  intro l1
  induction l1 with
  | nil =>
    intro l2 h1 _ h3
    have hp := h1 p (by simp)
    have hs := stepProfile_createReject renv fuel p e hp h3
    simp [recreateGo, hs]
  | cons q l1 ih =>
    intro l2 h1 h2 h3
    have hq := h1 q (by simp)
    have hqok := h2 q (List.mem_cons_self q l1)
    have hs := stepProfile_createOk renv fuel q hq hqok
    have hrest := ih l2 (fun r hr => h1 r (by simp at hr ⊢; tauto))
      (fun r hr => h2 r (List.mem_cons_of_mem q hr)) h3
    simp [recreateGo, hs, hrest]

theorem pollLoop_ne_blocked (env : Env) :
    ∀ fuel t cnt, (pollLoop env fuel t cnt).result ≠ .blockedInUse := by
  intro fuel
  induction fuel with
  | zero =>
    intro t cnt
    by_cases hlt : cnt < env.apps.length <;> simp [pollLoop, hlt]
  | succ fuel ih =>
    intro t cnt
    by_cases hlt : cnt < env.apps.length
    · simp only [pollLoop, if_pos hlt]
      cases htc : tickCount env t env.apps with
      | error a => simp
      | ok c => simpa using ih (t + 1) c
    · simp [pollLoop, hlt]

/-- C1: the parent delete request is issued only when, at the last poll tick,
every child reported a terminal status (Deleted or Failed); and when every
child is already terminal at the first tick — Failed children included — the
parent delete is issued. -/
theorem parent_delete_only_after_all_terminal (env : Env) (fuel : Nat) :
    (∀ u, (delete_user_profile env fuel).result = .parentDeleted u →
      ∀ a ∈ env.apps, ∃ s, env.describePoll (u - 1) a = .found s ∧
        (s = "Deleted" ∨ s = "Failed"))
    ∧ (env.profileExists = true →
        (∀ a ∈ env.apps, env.describeDel a ≠ .inUse) →
        (∀ a ∈ env.apps, ∃ s, env.describePoll 0 a = .found s ∧
          (s = "Deleted" ∨ s = "Failed")) →
        1 ≤ fuel →
        ∃ v, (delete_user_profile env fuel).result = .parentDeleted v) := by
  constructor
  · intro u h a ha
    have hp := run_parentDeleted env fuel u h
    rcases pollLoop_exit env fuel 0 0 u hp with ⟨hlen, _⟩ | ⟨t2, _, hu, hterm⟩
    · have hnil : env.apps = [] := List.eq_nil_of_length_eq_zero (Nat.le_zero.mp hlen)
      rw [hnil] at ha
      simp at ha
    · obtain ⟨s, hs, hts⟩ := hterm a ha
      refine ⟨s, ?_, (termStatus_iff s).mp hts⟩
      rw [hu]
      simpa using hs
  · intro hex hnb hterm hf
    have hterm2 : ∀ a ∈ env.apps, pollTerm env 0 a = true := by
      intro a ha
      obtain ⟨s, hs, hd⟩ := hterm a ha
      unfold pollTerm
      rw [hs]
      exact (termStatus_iff s).mpr hd
    obtain ⟨v, hv⟩ := pollLoop_converged_first env fuel hterm2 hf
    refine ⟨v, ?_⟩
    rw [run_no_inUse env fuel hex hnb]
    exact hv

/-- C1 witness: a parent with one Failed and one Deleted child at the first
tick has its delete issued — Failed does not block. -/
theorem parent_delete_only_after_all_terminal_witness :
    ∃ v, (delete_user_profile envFailedDeleted 3).result = .parentDeleted v :=
  (parent_delete_only_after_all_terminal envFailedDeleted 3).2 rfl
    (by decide)
    (by
      intro a ha
      simp only [envFailedDeleted] at ha
      rcases List.mem_cons.mp ha with rfl | ha2
      · exact ⟨"Failed", by decide, Or.inr rfl⟩
      · rcases List.mem_cons.mp ha2 with rfl | ha3
        · exact ⟨"Deleted", by decide, Or.inl rfl⟩
        · simp at ha3)
    (by decide)

/-- C2: against a child that never leaves InService, the polling loop of
`delete_user_profile` is still running after every fuel bound — the source
has no maximum tick count and never reports a timeout. -/
theorem poll_loop_never_exits_unconverged :
    ∀ fuel, (delete_user_profile envStuck fuel).result = .outOfFuel := by
  intro fuel
  have hloop : ∀ f t, (pollLoop envStuck f t 0).result = .outOfFuel := by
    intro f
    induction f with
    | zero => intro t; simp [pollLoop, envStuck]
    | succ f ih =>
      intro t
      have htc : tickCount envStuck t envStuck.apps = .ok 0 := rfl
      simp only [pollLoop, htc]
      simpa [envStuck] using ih (t + 1)
  rw [run_no_inUse envStuck fuel rfl (by decide)]
  exact hloop fuel 0

/-- C3 counterexample: a child that vanishes (NotFound) during the polling
phase makes the run end in an uncaught error, not in a Deleted-equivalent
terminal treatment. -/
theorem poll_notFound_error_cx :
    (delete_user_profile envVanish 5).result = .pollError 0 appA ∧
    (delete_user_profile envVanish 5).deletes = [appA] := by decide

/-- C3 amended: during the polling phase a NotFound status query propagates
as an error that aborts the teardown (no parent delete is issued). -/
theorem poll_notFound_aborts (env : Env) (fuel : Nat) (a : App) (rest : List App)
    (hex : env.profileExists = true)
    (hnb : ∀ b ∈ env.apps, env.describeDel b ≠ .inUse)
    (happs : env.apps = a :: rest)
    (hnf : env.describePoll 0 a = .notFound)
    (hf : 1 ≤ fuel) :
    (delete_user_profile env fuel).result = .pollError 0 a := by
  obtain ⟨f, rfl⟩ : ∃ f, fuel = f + 1 := ⟨fuel - 1, (Nat.succ_pred_eq_of_pos hf).symm⟩
  rw [run_no_inUse env (f + 1) hex hnb]
  have hlen : 0 < env.apps.length := by rw [happs]; simp
  have htc : tickCount env 0 env.apps = .error a := by
    rw [happs]
    simp [tickCount, hnf]
  simp only [pollLoop, if_pos hlen, htc]

/-- C3 amended witness: the concrete vanished-child run aborts with the
error. -/
theorem poll_notFound_aborts_witness :
    (delete_user_profile envVanish 3).result = .pollError 0 appA :=
  poll_notFound_aborts envVanish 3 appA [] rfl (by decide) rfl rfl (by decide)

/-- C6 counterexample: a child whose status is the terminal Failed still gets
a delete request. -/
theorem failed_child_delete_requested_cx :
    envFailedApp.describeDel appA = .found "Failed" ∧
    (delete_user_profile envFailedApp 2).deletes = [appA] := by decide

/-- C6 amended: the delete-request phase issues deletes exactly for the
children whose described status is neither Deleted nor Deleting — Failed
children are not skipped; NotFound children are. -/
theorem deletes_exactly_not_deleted_or_deleting (env : Env) (fuel : Nat)
    (hex : env.profileExists = true)
    (hnb : ∀ a ∈ env.apps, env.describeDel a ≠ .inUse) :
    (delete_user_profile env fuel).deletes = env.apps.filter (requestPred env)
    ∧ ∀ a, a ∈ (delete_user_profile env fuel).deletes ↔
        a ∈ env.apps ∧ requestPred env a = true := by
  rw [run_no_inUse env fuel hex hnb]
  exact ⟨rfl, fun a => List.mem_filter⟩

/-- C6 amended witness: with one InService child and one Deleted child, the
delete is requested for the InService child only. -/
theorem deletes_exactly_not_deleted_or_deleting_witness :
    (delete_user_profile envFailedDeleted 3).deletes
      = envFailedDeleted.apps.filter (requestPred envFailedDeleted) :=
  (deletes_exactly_not_deleted_or_deleting envFailedDeleted 3 rfl (by decide)).1

/-- C7 counterexample: a child already terminal (Deleted) at tick 0 is
queried again at tick 1. -/
theorem terminal_child_requeried_cx :
    pollTerm envRequery 0 appB = true ∧
    (1, appB) ∈ (delete_user_profile envRequery 3).queries := by decide

/-- C7 amended: on every executed tick the polling loop re-queries all
tracked children, the already-terminal ones included. -/
theorem all_children_queried_each_tick (env : Env) (fuel u : Nat)
    (h : (delete_user_profile env fuel).result = .parentDeleted u) (t : Nat)
    (ht : t < u) (a : App) (ha : a ∈ env.apps) :
    (t, a) ∈ (delete_user_profile env fuel).queries := by
  unfold delete_user_profile at h ⊢
  by_cases hex : env.profileExists
  · rw [if_pos hex] at h ⊢
    cases hdp : deletePhase env env.apps with
    | mk ds b =>
      rw [hdp] at h
      cases b
      · simp only at h ⊢
        exact pollLoop_queries env fuel 0 0 u h t a (Nat.zero_le t) ht ha
      · simp at h
  · rw [if_neg hex] at h
    simp at h

/-- C7 amended witness: the already-Deleted child is queried at both executed
ticks of the concrete run. -/
theorem all_children_queried_each_tick_witness :
    (1, appB) ∈ (delete_user_profile envRequery 3).queries :=
  all_children_queried_each_tick envRequery 3 2 (by decide) 1 (by decide) appB
    (by decide)

/-- C8 counterexample: a permission-denied delete is swallowed into the same
None result as an absent resource — no failure is propagated to the caller. -/
theorem delete_app_swallows_denial_cx :
    delete_app (.error "AccessDeniedException") = none ∧
    delete_app (.error "ResourceNotFound") = none := by decide

/-- C8 amended: `delete_app` returns the provider response on success and
None on every exception whatsoever; it never propagates any failure,
permission denial and malformed ids included. -/
theorem delete_app_never_propagates :
    (∀ e : String, delete_app (.error e) = none) ∧
    (∀ r : Unit, delete_app (.ok r) = some r) :=
  ⟨fun _ => rfl, fun _ => rfl⟩

/-- C9: a rejected (non-absent) delete request for one child changes nothing:
the other children still get their delete requests, the teardown is not
aborted by the rejection, the child stays in the polled set on every tick,
and the whole run is invariant under the delete outcomes. -/
theorem child_delete_rejection_isolated (env : Env) (fuel : Nat) (a : App)
    (r : String)
    (hex : env.profileExists = true)
    (hnb : ∀ b ∈ env.apps, env.describeDel b ≠ .inUse)
    (ha : a ∈ env.apps)
    (_hrej : env.deleteRaw a = .error r) :
    (delete_user_profile env fuel).deletes = env.apps.filter (requestPred env)
    ∧ (delete_user_profile env fuel).result ≠ .blockedInUse
    ∧ (∀ u, (delete_user_profile env fuel).result = .parentDeleted u →
        ∀ t, t < u → (t, a) ∈ (delete_user_profile env fuel).queries)
    ∧ (∀ f, delete_user_profile {env with deleteRaw := f} fuel
        = delete_user_profile env fuel) := by
  refine ⟨?_, ?_, ?_, fun f => run_deleteRaw env f fuel⟩
  · rw [run_no_inUse env fuel hex hnb]
  · rw [run_no_inUse env fuel hex hnb]
    exact pollLoop_ne_blocked env fuel 0 0
  · intro u hu t ht
    rw [run_no_inUse env fuel hex hnb] at hu ⊢
    exact pollLoop_queries env fuel 0 0 u hu t a (Nat.zero_le t) ht ha

/-- C9 witness: with the delete of one child rejected by the provider, both
children still get delete requests and the rejected child is polled. -/
theorem child_delete_rejection_isolated_witness :
    (delete_user_profile envRejected 3).deletes
      = envRejected.apps.filter (requestPred envRejected) :=
  (child_delete_rejection_isolated envRejected 3 appA "AccessDeniedException"
    rfl (by decide) (by decide) rfl).1

theorem stepProfile_normal (renv : REnv) (fuel : Nat) (p : Profile)
    (h1 : returnsNormally (delete_user_profile (renv.tdEnv p.name) fuel).result
      = true) :
    (stepProfile renv fuel p).waitIters = some 0
    ∧ (stepProfile renv fuel p).sleepUnits = some 5
    ∧ (stepProfile renv fuel p).createIssued = some p := by
  unfold stepProfile
  cases hr : (delete_user_profile (renv.tdEnv p.name) fuel).result with
  | pollError t a => rw [hr] at h1; simp [returnsNormally] at h1
  | outOfFuel => rw [hr] at h1; simp [returnsNormally] at h1
  | profileAbsent =>
    cases hc : renv.createRaw p.name <;> simp [hr, hc, waitLoop_eq_zero]
  | blockedInUse =>
    cases hc : renv.createRaw p.name <;> simp [hr, hc, waitLoop_eq_zero]
  | parentDeleted t =>
    cases hc : renv.createRaw p.name <;> simp [hr, hc, waitLoop_eq_zero]

/-- C4 counterexample: with three parents and the create of the first
rejected, `recreate_all_user_profiles` raises out of the loop — the other
two parents are never processed and no per-parent outcome exists. -/
theorem batch_aborts_on_create_rejection_cx :
    (recreate_all_user_profiles renvRejectP1 3).processed = ["prof-1"] ∧
    (recreate_all_user_profiles renvRejectP1 3).err = some "prof-1" := by decide

/-- C4 amended: a Blocked teardown alone does not stop the batch (every
parent is still processed), but a rejected create raises and aborts the
batch, leaving the parents after it unprocessed. -/
theorem blocked_isolated_rejection_aborts (renv : REnv) (fuel : Nat) :
    ((∀ p ∈ renv.profiles,
        returnsNormally (delete_user_profile (renv.tdEnv p.name) fuel).result
          = true) →
      (∀ p ∈ renv.profiles, renv.createRaw p.name = .ok ()) →
      (recreate_all_user_profiles renv fuel).processed
          = renv.profiles.map Profile.name
        ∧ (recreate_all_user_profiles renv fuel).err = none)
    ∧ (∀ l1 p l2 e, renv.profiles = l1 ++ p :: l2 →
        (∀ q ∈ renv.profiles,
          returnsNormally (delete_user_profile (renv.tdEnv q.name) fuel).result
            = true) →
        (∀ q ∈ l1, renv.createRaw q.name = .ok ()) →
        renv.createRaw p.name = .error e →
        (recreate_all_user_profiles renv fuel).processed
            = l1.map Profile.name ++ [p.name]
          ∧ (recreate_all_user_profiles renv fuel).err = some p.name) := by
  constructor
  · intro h1 h2
    unfold recreate_all_user_profiles
    rw [recreateGo_all_ok renv fuel renv.profiles h1 h2]
    exact ⟨rfl, rfl⟩
  · intro l1 p l2 e hsplit h1 h2 h3
    unfold recreate_all_user_profiles
    rw [hsplit] at h1 ⊢
    rw [recreateGo_reject renv fuel p e l1 l2 h1 h2 h3]
    exact ⟨rfl, rfl⟩

/-- C4 amended witness: a batch whose middle parent is Blocked still
processes all three parents; a batch whose first create is rejected aborts
at that parent. -/
theorem blocked_isolated_rejection_aborts_witness :
    ((recreate_all_user_profiles renvBlockedMid 3).processed
        = renvBlockedMid.profiles.map Profile.name
      ∧ (recreate_all_user_profiles renvBlockedMid 3).err = none)
    ∧ (recreate_all_user_profiles renvRejectP1 3).err = some "prof-1" :=
  ⟨(blocked_isolated_rejection_aborts renvBlockedMid 3).1 (by decide)
      (fun p _ => rfl),
    ((blocked_isolated_rejection_aborts renvRejectP1 3).2 []
      profP1 [profP2, profP3] "Rejected" rfl (by decide) (by simp) rfl).2⟩

/-- C5 counterexample: a parent whose teardown ends Blocked (a child in use,
no parent delete issued) still gets its create request issued. -/
theorem create_despite_blocked_teardown_cx :
    (delete_user_profile (renvBlockedOnly.tdEnv "prof-1") 3).result
      = .blockedInUse ∧
    (recreate_all_user_profiles renvBlockedOnly 3).creates = [profP1] := by
  decide

/-- C5 amended: for every parent whose teardown call returns — successfully
or Blocked alike — exactly one create request is issued, carrying the name
and execution role of the pre-teardown snapshot. -/
theorem create_once_with_snapshot (renv : REnv) (fuel : Nat)
    (h1 : ∀ p ∈ renv.profiles,
      returnsNormally (delete_user_profile (renv.tdEnv p.name) fuel).result
        = true)
    (h2 : ∀ p ∈ renv.profiles, renv.createRaw p.name = .ok ()) :
    (recreate_all_user_profiles renv fuel).creates = renv.profiles := by
  unfold recreate_all_user_profiles
  rw [recreateGo_all_ok renv fuel renv.profiles h1 h2]

/-- C5 amended witness: the Blocked parent still has exactly its snapshot
create issued. -/
theorem create_once_with_snapshot_witness :
    (recreate_all_user_profiles renvBlockedOnly 3).creates
      = renvBlockedOnly.profiles :=
  create_once_with_snapshot renvBlockedOnly 3 (by decide) (fun p _ => rfl)

/-- C10: the wait-loop membership test compares a name string with profile
dicts and is therefore always false, so the loop runs zero iterations and
the create follows after the single fixed 5-unit sleep, whether or not the
profile is still listed. -/
theorem wait_loop_always_zero (renv : REnv) (fuel : Nat) (p : Profile)
    (h1 : returnsNormally (delete_user_profile (renv.tdEnv p.name) fuel).result
      = true) :
    (∀ l : List Profile, pyMem (.str p.name) (l.map PyVal.dict) = false)
    ∧ (stepProfile renv fuel p).waitIters = some 0
    ∧ (stepProfile renv fuel p).sleepUnits = some 5
    ∧ (stepProfile renv fuel p).createIssued = some p := by
  obtain ⟨hw, hs, hc⟩ := stepProfile_normal renv fuel p h1
  exact ⟨fun l => pyMem_str_dict p.name l, hw, hs, hc⟩

/-- C10 witness: even though the profile is still listed after its Blocked
teardown, the wait loop runs zero iterations and the create is issued. -/
theorem wait_loop_always_zero_witness :
    (stepProfile renvBlockedOnly 3 profP1).waitIters = some 0
    ∧ (stepProfile renvBlockedOnly 3 profP1).createIssued = some profP1 :=
  ⟨(wait_loop_always_zero renvBlockedOnly 3 profP1 (by decide)).2.1,
    (wait_loop_always_zero renvBlockedOnly 3 profP1 (by decide)).2.2.2⟩

end Baram
